import Mathlib

/-!
Shallow embedding of `python/sglang/srt/disaggregation/decode.py` (the decode-side
admission and scheduling core of the disaggregated inference server), together with
theorems checking the natural-language specification against it.

Conventions used throughout:
* Pure data (token id lists, handles) is modelled with `Nat` / `Int`.
* The external receiver poll plus the cross-rank all-reduce agreement step is
  modelled by passing the agreed per-entry poll results as an input list, one
  `KVPoll` per queue entry (the spec's `poll_many(receivers) -> agreed_states[]`).
* Python `assert` statements and uncaught exceptions are modelled by returning
  `Except.error`; the happy path returns `Except.ok`.
* The three allocators (`ReqToTokenPool`, `TokenToKVPoolAllocator`,
  `ReqToMetadataIdxAllocator`) live outside `decode.py`, so they are modelled from
  the spec's allocator contract (free lists of opaque integer handles whose
  `available_size` matches the outstanding-handle count).
-/

namespace DisaggDecode

/-- Poll states of a KV receiver (`KVPoll` in `sglang.srt.disaggregation.base`). -/
inductive KVPoll where
  | Bootstrapping
  | WaitingForInput
  | Transferring
  | Success
  | Failed
  deriving DecidableEq, Repr

/-- The request fields this module reads or writes (`Req` lives in
`schedule_batch.py`, outside `src/`; only the fields `decode.py` touches are
mirrored here).  `aborted` records the effect of `prepare_abort` (modelled from
the spec: emitting an abort marks the request failed for its consumer). -/
structure Req where
  rid : Nat
  origin_input_ids : List Nat := []
  output_ids : List Nat := []
  prefix_indices : List Nat := []
  fill_ids : List Nat := []
  extend_input_len : Nat := 0
  extend_logprob_start_len : Nat := 0
  req_pool_idx : Option Nat := none
  transferred_output_id : Option Nat := none
  cached_tokens : Int := 0
  already_computed : Nat := 0
  is_retracted : Bool := false
  finished : Bool := false
  aborted : Bool := false
  deriving DecidableEq, Repr

/-- `DecodeRequest` dataclass of `decode.py`: a request together with its receiver
state.  The receiver object itself is external; `receiver_dst` records the
destination (page indices, metadata buffer index) passed to `kv_receiver.init`. -/
structure DecodeRequest where
  req : Req
  waiting_for_input : Bool := false
  metadata_buffer_index : Int := -1
  receiver_dst : Option (List Nat × Int) := none
  deriving DecidableEq, Repr

/-- Modelled from the spec: the request-slot pool (`ReqToTokenPool`, outside
`src/`) hands out integer slot handles from a free list; `req_to_token` is the
per-slot token-location table written by pre-allocation. -/
structure ReqToTokenPool where
  size : Nat := 0
  free_slots : List Nat := []
  req_to_token : List (Nat × List Nat) := []
  deriving DecidableEq, Repr

def ReqToTokenPool.available_size (p : ReqToTokenPool) : Nat :=
  p.free_slots.length

/-- Modelled from the spec: `alloc(1)` pops one free slot handle, or returns
`none` when the pool is exhausted. -/
def ReqToTokenPool.alloc1 (p : ReqToTokenPool) : Option Nat × ReqToTokenPool :=
  match p.free_slots with
  | [] => (none, p)
  | x :: rest => (some x, { p with free_slots := rest })

/-- `req_to_token[(idx, slice(0, len(loc)))] = loc`: record the cache locations
for a slot (newest write shadows older ones in the association list). -/
def ReqToTokenPool.write (p : ReqToTokenPool) (idx : Nat) (loc : List Nat) :
    ReqToTokenPool :=
  { p with req_to_token := (idx, loc) :: p.req_to_token }

/-- `req_to_token[idx][:n]` (unwritten rows read as empty). -/
def ReqToTokenPool.read (p : ReqToTokenPool) (idx : Nat) (n : Nat) : List Nat :=
  ((p.req_to_token.lookup idx).getD []).take n

/-- Modelled from the spec: the token key/value cache pool
(`TokenToKVPoolAllocator`, outside `src/`) hands out token cache locations from
a free list; `available_size` is the free token capacity. -/
structure TokenKVAllocator where
  free_slots : List Nat := []
  page_size : Nat := 1
  deriving DecidableEq, Repr

def TokenKVAllocator.available_size (a : TokenKVAllocator) : Nat :=
  a.free_slots.length

/-- Modelled from the spec: `alloc(n) -> handle_or_none`. -/
def TokenKVAllocator.alloc (a : TokenKVAllocator) (need : Nat) :
    Option (List Nat) × TokenKVAllocator :=
  if need ≤ a.free_slots.length then
    (some (a.free_slots.take need), { a with free_slots := a.free_slots.drop need })
  else
    (none, a)

/-- Modelled from the spec: `alloc_extend(prefix_lens, seq_lens, last_loc,
extend_num_tokens)` allocates `extend_num_tokens` new positions (the page-size
greater than one path of `_pre_alloc`). -/
def TokenKVAllocator.alloc_extend (a : TokenKVAllocator) (extend_num_tokens : Nat) :
    Option (List Nat) × TokenKVAllocator :=
  a.alloc extend_num_tokens

/-- Modelled from the spec: the metadata-buffer-index pool
(`ReqToMetadataIdxAllocator`, outside `src/`): a free list of integer handles;
`free` returns a handle to the back of the list. -/
structure ReqToMetadataIdxAllocator where
  free_slots : List Int := []
  deriving DecidableEq, Repr

def ReqToMetadataIdxAllocator.available_size (a : ReqToMetadataIdxAllocator) : Nat :=
  a.free_slots.length

def ReqToMetadataIdxAllocator.alloc (a : ReqToMetadataIdxAllocator) :
    Option Int × ReqToMetadataIdxAllocator :=
  match a.free_slots with
  | [] => (none, a)
  | x :: rest => (some x, ⟨rest⟩)

def ReqToMetadataIdxAllocator.free (a : ReqToMetadataIdxAllocator) (idx : Int) :
    ReqToMetadataIdxAllocator :=
  ⟨a.free_slots ++ [idx]⟩

/-- Modelled from the spec: `kv_to_page_indices` (in `utils.py`, outside `src/`)
derives the page-aligned cache-location list for the receiver destination. -/
def kvToPageIndices (kv_indices : List Nat) (page_size : Nat) : List Nat :=
  if page_size = 1 then kv_indices
  else (kv_indices.filter (fun x => x % page_size = 0)).map (fun x => x / page_size)

/-- Shape of `scheduler.last_batch` as read by `_allocatable_tokens`: its request
count and whether `forward_mode.is_extend()`. -/
structure LastBatch where
  num_reqs : Nat := 0
  is_extend : Bool := false
  deriving DecidableEq, Repr

/-- `DecodePreallocQueue` state: the pending-entry list plus the pools it mutates
and the scheduler-owned counters `_allocatable_tokens` reads
(`len(scheduler.running_batch.reqs)`, `len(transfer_queue.queue)`,
`len(scheduler.waiting_queue)`, `scheduler.last_batch`). -/
structure DecodePreallocQueue where
  queue : List DecodeRequest := []
  req_to_token_pool : ReqToTokenPool := {}
  token_to_kv_pool_allocator : TokenKVAllocator := {}
  req_to_metadata_buffer_idx_allocator : ReqToMetadataIdxAllocator := {}
  num_reserved_decode_tokens : Nat := 512
  running_batch_len : Nat := 0
  transfer_queue_len : Nat := 0
  waiting_queue_len : Nat := 0
  last_batch : Option LastBatch := none
  deriving DecidableEq, Repr

/-- `DecodePreallocQueue._allocatable_tokens`. -/
def allocatableTokens (s : DecodePreallocQueue) : Int :=
  let base : Int :=
    (s.token_to_kv_pool_allocator.available_size : Int)
      - (s.num_reserved_decode_tokens : Int)
        * ((s.running_batch_len : Int) + (s.transfer_queue_len : Int)
            + (s.waiting_queue_len : Int))
  match s.last_batch with
  | some lb =>
      if lb.is_extend then base - (s.num_reserved_decode_tokens : Int) * (lb.num_reqs : Int)
      else base
  | none => base

/-- The admission-control token-budget formula as the spec states it (§4.1):
free cache capacity, minus the per-request reservation times the number of
requests in flight, minus additionally a reservation for the previous tick's
prebuilt-extend batch when one exists. -/
def specTokenBudget (s : DecodePreallocQueue) : Int :=
  (s.token_to_kv_pool_allocator.available_size : Int)
    - (s.num_reserved_decode_tokens : Int)
      * ((s.running_batch_len : Int) + (s.transfer_queue_len : Int)
          + (s.waiting_queue_len : Int))
    - (match s.last_batch with
       | some lb =>
           if lb.is_extend then (s.num_reserved_decode_tokens : Int) * (lb.num_reqs : Int)
           else 0
       | none => 0)

/-- Per-entry mutation of `_update_handshake_waiters`: `Bootstrapping` leaves the
entry alone, `WaitingForInput` marks the handshake satisfied, `Failed` runs
`prepare_abort` on the request (modelled as setting `aborted`; the external
error logging/response is out of model).  Note that the source removes nothing
from the queue in any branch. -/
def updateHandshakeWaiter (d : DecodeRequest) (poll : KVPoll) : DecodeRequest :=
  match poll with
  | KVPoll.Bootstrapping => d
  | KVPoll.WaitingForInput => { d with waiting_for_input := true }
  | KVPoll.Failed => { d with req := { d.req with aborted := true } }
  | KVPoll.Transferring => d
  | KVPoll.Success => d

/-- `DecodePreallocQueue._update_handshake_waiters`, with the agreed poll results
passed in (one per queue entry). -/
def DecodePreallocQueue.updateHandshakeWaiters (s : DecodePreallocQueue)
    (polls : List KVPoll) : DecodePreallocQueue :=
  if s.queue.isEmpty then s
  else if s.queue.all (fun d => d.waiting_for_input) then s
  else { s with queue := (s.queue.zip polls).map (fun x => updateHandshakeWaiter x.1 x.2) }

/-- `len(decode_req.req.origin_input_ids) + self.num_reserved_decode_tokens`. -/
def requiredTokens (reserved : Nat) (d : DecodeRequest) : Nat :=
  d.req.origin_input_ids.length + reserved

/-- `DecodePreallocQueue._pre_alloc`: take one request slot, take
`len(origin_input_ids) + max(len(output_ids) - 1, 0)` cache positions (both
page-size branches request this count), record them in the slot table, and
populate `fill_ids` / `extend_input_len`.  A failed allocator assert is `none`. -/
def preAlloc (pool : ReqToTokenPool) (kv : TokenKVAllocator) (req : Req) :
    Option (Req × ReqToTokenPool × TokenKVAllocator × List Nat) :=
  match pool.alloc1 with
  | (none, _) => none
  | (some idx, pool1) =>
    let num_tokens := req.origin_input_ids.length + (req.output_ids.length - 1)
    let alloc_res :=
      if kv.page_size = 1 then kv.alloc num_tokens else kv.alloc_extend num_tokens
    match alloc_res with
    | (none, _) => none
    | (some kv_loc, kv1) =>
      let pool2 := pool1.write idx kv_loc
      some ({ req with
                req_pool_idx := some idx,
                fill_ids := req.origin_input_ids ++ req.output_ids,
                extend_input_len := req.origin_input_ids.length },
            pool2, kv1, kv_loc)

/-- The admission scan of `pop_preallocated`: FIFO over the queue, skipping
entries whose handshake is unsatisfied (`continue`), stopping at the first
entry for which the request-slot pool, the metadata-index pool, or the token
budget is insufficient (`break`), otherwise pre-allocating and collecting the
entry.  Returns (popped entries, queue leftovers, pools, remaining budget). -/
def popLoop (reserved : Nat) (page_size : Nat) :
    List DecodeRequest → ReqToTokenPool → ReqToMetadataIdxAllocator →
    TokenKVAllocator → Int →
    Except String (List DecodeRequest × List DecodeRequest × ReqToTokenPool ×
      ReqToMetadataIdxAllocator × TokenKVAllocator × Int)
  | [], pool, meta, kv, budget => Except.ok ([], [], pool, meta, kv, budget)
  | d :: rest, pool, meta, kv, budget =>
    if d.waiting_for_input = false then
      match popLoop reserved page_size rest pool meta kv budget with
      | Except.error e => Except.error e
      | Except.ok (p, r, pool1, meta1, kv1, b1) =>
          Except.ok (p, d :: r, pool1, meta1, kv1, b1)
    else if pool.available_size ≤ 0 then
      Except.ok ([], d :: rest, pool, meta, kv, budget)
    else if meta.available_size ≤ 0 then
      Except.ok ([], d :: rest, pool, meta, kv, budget)
    else if (requiredTokens reserved d : Int) > budget then
      Except.ok ([], d :: rest, pool, meta, kv, budget)
    else
      match preAlloc pool kv d.req with
      | none => Except.error "assert in pre_alloc failed"
      | some (req1, pool1, kv1, _kv_loc) =>
        match meta.alloc with
        | (none, _) => Except.error "assert metadata_buffer_index is not None failed"
        | (some midx, meta1) =>
          match popLoop reserved page_size rest pool1 meta1 kv1
              (budget - (requiredTokens reserved d : Int)) with
          | Except.error e => Except.error e
          | Except.ok (p, r, pool2, meta2, kv2, b2) =>
              Except.ok ({ d with
                             req := req1,
                             metadata_buffer_index := midx,
                             receiver_dst := some
                               (kvToPageIndices
                                 (pool1.read (req1.req_pool_idx.getD 0)
                                   req1.origin_input_ids.length) page_size,
                                midx) } :: p,
                r, pool2, meta2, kv2, b2)

/-- `DecodePreallocQueue.pop_preallocated`: refresh handshake states, compute the
token budget once, then run the FIFO admission scan and remove the admitted
entries from the queue. -/
def DecodePreallocQueue.pop_preallocated (s : DecodePreallocQueue)
    (polls : List KVPoll) :
    Except String (List DecodeRequest × DecodePreallocQueue) :=
  match popLoop (s.updateHandshakeWaiters polls).num_reserved_decode_tokens
      (s.updateHandshakeWaiters polls).token_to_kv_pool_allocator.page_size
      (s.updateHandshakeWaiters polls).queue
      (s.updateHandshakeWaiters polls).req_to_token_pool
      (s.updateHandshakeWaiters polls).req_to_metadata_buffer_idx_allocator
      (s.updateHandshakeWaiters polls).token_to_kv_pool_allocator
      (allocatableTokens (s.updateHandshakeWaiters polls)) with
  | Except.error e => Except.error e
  | Except.ok (p, r, pool1, meta1, kv1, _) =>
      Except.ok (p, { s.updateHandshakeWaiters polls with
                        queue := r,
                        req_to_token_pool := pool1,
                        req_to_metadata_buffer_idx_allocator := meta1,
                        token_to_kv_pool_allocator := kv1 })

/-- The claim's characterisation of the admission count: scanning in arrival
order, an entry is admitted while one request slot, one metadata index and
`prompt length + reserved margin` tokens remain; the count stops at the first
entry that does not fit. -/
def specGreedyAdmitCount (reserved : Nat) :
    Nat → Nat → Int → List DecodeRequest → Nat
  | _, _, _, [] => 0
  | slots, metas, budget, d :: rest =>
    if slots = 0 then 0
    else if metas = 0 then 0
    else if (requiredTokens reserved d : Int) > budget then 0
    else 1 + specGreedyAdmitCount reserved (slots - 1) (metas - 1)
          (budget - (requiredTokens reserved d : Int)) rest

/-- The admission count of a `DecodePreallocQueue` state per the claim. -/
def specAdmitCount (s : DecodePreallocQueue) : Nat :=
  specGreedyAdmitCount s.num_reserved_decode_tokens
    s.req_to_token_pool.available_size
    s.req_to_metadata_buffer_idx_allocator.available_size
    (allocatableTokens s) s.queue

/-- `DecodeTransferQueue` state: the polling-entry list, the metadata-index
allocator it frees into, and the metadata buffers (`metadata_buffers[0][idx][0]`
holds the transferred output token id for buffer index `idx`). -/
structure DecodeTransferQueue where
  queue : List DecodeRequest := []
  req_to_metadata_buffer_idx_allocator : ReqToMetadataIdxAllocator := {}
  metadata_buffers : List (List (List Nat)) := []
  deriving DecidableEq, Repr

/-- `output_id_buffer = metadata_buffers[0]; output_id = output_id_buffer[idx][0]`. -/
def pollOutputId (bufs : List (List (List Nat))) (idx : Int) : Nat :=
  ((bufs.getD 0 []).getD idx.toNat []).getD 0 0

/-- The `KVPoll.Success` branch of `pop_transferred`: assert the request has no
output yet, read the transferred output token from the metadata buffer slot,
assert the transferred-output field is still unset, then set it.  A violated
assert is an `Except.error`. -/
def successAction (bufs : List (List (List Nat))) (d : DecodeRequest) :
    Except String DecodeRequest :=
  if d.req.output_ids.length ≠ 0 then
    Except.error "assert len(decode_req.req.output_ids) == 0 failed"
  else if d.req.transferred_output_id ≠ none then
    Except.error "assert decode_req.req.transferred_output_id is None failed"
  else
    Except.ok { d with req := { d.req with
      transferred_output_id := some (pollOutputId bufs d.metadata_buffer_index) } }

/-- One iteration of the `pop_transferred` poll loop, returning the (possibly
updated) entry plus the flags (removed, transferred).  `Failed` raises: the
branch as written cannot run — its error-message f-string reads
`self.tp_rank`, and it goes on to read `HTTPStatus`, `self.scheduler` and
`self.tree_cache`, none of which `DecodeTransferQueue.__init__` sets or
`decode.py` imports — so a failed transfer raises an `AttributeError` before
`indices_to_remove.add(i)` is reached.  `Success` runs `successAction` and
both removes and returns the entry; `Bootstrapping` / `WaitingForInput` /
`Transferring` leave it queued.  The source's final `raise ValueError` branch
is unreachable: the five constructors above are the whole poll type. -/
def transferStep (bufs : List (List (List Nat))) (d : DecodeRequest)
    (poll : KVPoll) : Except String (DecodeRequest × Bool × Bool) :=
  match poll with
  | KVPoll.Failed =>
      Except.error "AttributeError: DecodeTransferQueue object has no attribute tp_rank"
  | KVPoll.Success =>
      match successAction bufs d with
      | Except.error e => Except.error e
      | Except.ok d1 => Except.ok (d1, true, true)
  | KVPoll.Bootstrapping => Except.ok (d, false, false)
  | KVPoll.WaitingForInput => Except.ok (d, false, false)
  | KVPoll.Transferring => Except.ok (d, false, false)

/-- The poll loop of `pop_transferred` over `zip(queue, polls)`. -/
def transferLoop (bufs : List (List (List Nat))) :
    List DecodeRequest → List KVPoll →
    Except String (List (DecodeRequest × Bool × Bool))
  | [], _ => Except.ok []
  | _ :: _, [] => Except.ok []
  | d :: ds, p :: ps =>
    match transferStep bufs d p with
    | Except.error e => Except.error e
    | Except.ok x =>
      match transferLoop bufs ds ps with
      | Except.error e => Except.error e
      | Except.ok xs => Except.ok (x :: xs)

/-- The free phase of `pop_transferred`: for every entry marked for removal,
assert its metadata-buffer index was allocated (`idx != -1`) and return the
index to the allocator — exactly once per removed entry. -/
def freeRemoved : List (DecodeRequest × Bool × Bool) → ReqToMetadataIdxAllocator →
    Except String ReqToMetadataIdxAllocator
  | [], a => Except.ok a
  | (d, removed, _) :: rest, a =>
    if removed then
      if d.metadata_buffer_index = -1 then Except.error "assert idx != -1 failed"
      else freeRemoved rest (a.free d.metadata_buffer_index)
    else freeRemoved rest a

/-- `DecodeTransferQueue.pop_transferred` with the agreed poll results passed in:
run the poll loop, free the removed entries' metadata indices, compact the
queue, and return the successfully transferred entries. -/
def DecodeTransferQueue.pop_transferred (s : DecodeTransferQueue)
    (polls : List KVPoll) :
    Except String (List DecodeRequest × DecodeTransferQueue) :=
  if s.queue.isEmpty then Except.ok ([], s)
  else
    match transferLoop s.metadata_buffers s.queue polls with
    | Except.error e => Except.error e
    | Except.ok steps =>
      match freeRemoved steps s.req_to_metadata_buffer_idx_allocator with
      | Except.error e => Except.error e
      | Except.ok alloc1 =>
        Except.ok ((steps.filter (fun x => x.2.2)).map (fun x => x.1),
          { s with
              queue := (steps.filter (fun x => !x.2.1)).map (fun x => x.1),
              req_to_metadata_buffer_idx_allocator := alloc1 })

/-- `ScheduleBatch` fields populated by the prebuilt-extend path (the full class
lives in `schedule_batch.py`; only what `decode.py` reads and writes is
mirrored).  `forward_mode_extend` models `forward_mode.is_extend()`. -/
structure ScheduleBatch where
  reqs : List Req := []
  forward_mode_extend : Bool := false
  input_ids : List Nat := []
  req_pool_indices : List Nat := []
  seq_lens : List Nat := []
  out_cache_loc : List Nat := []
  seq_lens_sum : Nat := 0
  extend_num_tokens : Nat := 0
  prefix_lens : List Nat := []
  extend_lens : List Nat := []
  extend_logprob_start_lens : List Nat := []
  output_ids : List Nat := []
  deriving DecidableEq, Repr

def ScheduleBatch.is_empty (b : ScheduleBatch) : Bool :=
  b.reqs.isEmpty

/-- `seq_len = len(req.origin_input_ids) + max(0, len(req.output_ids) - 1)`
(natural subtraction is the needed truncation at zero). -/
def seqLenOf (r : Req) : Nat :=
  r.origin_input_ids.length + (r.output_ids.length - 1)

/-- Per-request bookkeeping stamped by `prepare_for_prebuilt_extend`:
`cached_tokens += pre_len - already_computed; already_computed = seq_len;
is_retracted = False; extend_logprob_start_len = 0`. -/
def prebuiltStamp (r : Req) : Req :=
  { r with
      cached_tokens :=
        r.cached_tokens + ((r.prefix_indices.length : Int) - (r.already_computed : Int)),
      already_computed := seqLenOf r,
      is_retracted := false,
      extend_logprob_start_len := 0 }

/-- The per-request loop of `prepare_for_prebuilt_extend`: check the
out-cache-loc write stays in bounds (`assert offset + extend_input_len <=
total_size`), read the request's cache-location chunk, check the extend-length
invariant for requests with no prior output (`assert seq_len - pre_len ==
extend_input_len`), and stamp the bookkeeping fields.  Returns
(updated reqs, req_pool_indices, out_cache_loc, seq_lens, pre_lens). -/
def prebuiltLoop (pool : ReqToTokenPool) (total_size : Nat) :
    List Req → Nat →
    Except String (List Req × List Nat × List Nat × List Nat × List Nat)
  | [], _ => Except.ok ([], [], [], [], [])
  | r :: rs, offset =>
    if offset + r.extend_input_len ≤ total_size then
      if r.output_ids.length = 0 ∧
          (seqLenOf r : Int) - (r.prefix_indices.length : Int) ≠
            (r.extend_input_len : Int) then
        Except.error "assert seq_len - pre_len == req.extend_input_len failed"
      else
        match prebuiltLoop pool total_size rs (offset + r.extend_input_len) with
        | Except.error e => Except.error e
        | Except.ok (rs1, idxs, locs, sls, pls) =>
            Except.ok (prebuiltStamp r :: rs1, r.req_pool_idx.getD 0 :: idxs,
              pool.read (r.req_pool_idx.getD 0) r.extend_input_len ++ locs,
              seqLenOf r :: sls, r.prefix_indices.length :: pls)
    else
      Except.error "assert offset plus extend_input_len exceeds total size"

/-- `ScheduleBatchDisaggregationDecodeMixin.prepare_for_prebuilt_extend`:
synthesize the metadata a real prefill pass would have produced (forward mode
EXTEND, flat input ids, per-request cache locations, sequence/extend lengths).
The sampling-info construction is an external call and is out of model. -/
def ScheduleBatch.prepare_for_prebuilt_extend (b : ScheduleBatch)
    (pool : ReqToTokenPool) : Except String ScheduleBatch :=
  match prebuiltLoop pool ((b.reqs.map (fun r => r.extend_input_len)).sum) b.reqs 0 with
  | Except.error e => Except.error e
  | Except.ok (reqs1, idxs, locs, sls, _pls) =>
      Except.ok { b with
                    forward_mode_extend := true,
                    reqs := reqs1,
                    input_ids :=
                      (b.reqs.map (fun r => r.fill_ids.drop r.prefix_indices.length)).flatten,
                    req_pool_indices := idxs,
                    seq_lens := sls,
                    out_cache_loc := locs,
                    seq_lens_sum := sls.sum,
                    extend_num_tokens :=
                      ((b.reqs.map (fun r => r.fill_ids.drop r.prefix_indices.length)).map
                        (fun l => l.length)).sum,
                    prefix_lens := b.reqs.map (fun r => r.prefix_indices.length),
                    extend_lens := b.reqs.map (fun r => r.extend_input_len),
                    extend_logprob_start_lens :=
                      reqs1.map (fun r => r.extend_logprob_start_len) }

/-- The per-request loop of `process_prebuilt_extend`: a request with existing
output tokens (a resumed retracted request) contributes its last output token
and is left unchanged; a request with no output must have its
transferred-output field set (asserted), which is appended to its outputs and
contributed to the batch.  `tree_cache.cache_unfinished_req` is an external
effect and is out of model. -/
def processLoop : List Req → Except String (List Req × List Nat)
  | [] => Except.ok ([], [])
  | r :: rs =>
    if r.output_ids.length > 0 then
      match processLoop rs with
      | Except.error e => Except.error e
      | Except.ok (rs1, outs) => Except.ok (r :: rs1, r.output_ids.getLastD 0 :: outs)
    else
      match r.transferred_output_id with
      | none => Except.error "assert req.transferred_output_id is not None failed"
      | some t =>
        match processLoop rs with
        | Except.error e => Except.error e
        | Except.ok (rs1, outs) =>
            Except.ok ({ r with output_ids := r.output_ids ++ [t] } :: rs1, t :: outs)

/-- `ScheduleBatchDisaggregationDecodeMixin.process_prebuilt_extend`. -/
def ScheduleBatch.process_prebuilt_extend (b : ScheduleBatch) :
    Except String ScheduleBatch :=
  match processLoop b.reqs with
  | Except.error e => Except.error e
  | Except.ok (reqs1, outs) => Except.ok { b with reqs := reqs1, output_ids := outs }

/-- The scheduler fields the two mixin methods of `decode.py` read and write. -/
structure SchedulerState where
  last_batch : Option ScheduleBatch := none
  running_batch : ScheduleBatch := {}
  waiting_queue : List Req := []
  req_to_token_pool : ReqToTokenPool := {}
  max_running_requests : Nat := 0
  chunked_req : Option Nat := none
  deriving DecidableEq, Repr

/-- Modelled from the spec: `filter_batch` (in `schedule_batch.py`, outside
`src/`) drops the requests that already finished. -/
def filterBatch (b : ScheduleBatch) : ScheduleBatch :=
  { b with reqs := b.reqs.filter (fun r => !r.finished) }

/-- Modelled from the spec: `merge_batch` (outside `src/`) merges the prebuilt
batch's request set into the running batch. -/
def mergeBatch (a b : ScheduleBatch) : ScheduleBatch :=
  { a with reqs := a.reqs ++ b.reqs }

/-- Modelled from the spec: `req.init_next_round_input(tree_cache)` (outside
`src/`) materializes the next-round input: `fill_ids` becomes prompt plus
outputs; on the decode instance's chunk cache no prefix is matched, and the
extend length is the unmatched remainder. -/
def initNextRoundInput (r : Req) : Req :=
  { r with
      fill_ids := r.origin_input_ids ++ r.output_ids,
      prefix_indices := [],
      extend_input_len := r.origin_input_ids.length + r.output_ids.length }

/-- Step 1 of `get_next_disagg_decode_batch_to_run`: if the previous tick's
batch is a (prebuilt) extend batch, assert no chunked prefill is pending,
filter out finished requests, and fold the remainder into the running batch
(adopting it wholesale when the running batch is empty). -/
def mergeLastBatch (s : SchedulerState) : Except String SchedulerState :=
  match s.last_batch with
  | some lb =>
    if lb.forward_mode_extend then
      if s.chunked_req ≠ none then
        Except.error "assert self.chunked_req is None failed"
      else
        let lb1 := filterBatch lb
        if lb1.is_empty = false then
          if s.running_batch.is_empty then
            Except.ok { s with running_batch := lb1, last_batch := some lb1 }
          else
            Except.ok { s with running_batch := mergeBatch s.running_batch lb1,
                               last_batch := some lb1 }
        else Except.ok { s with last_batch := some lb1 }
    else Except.ok s
  | none => Except.ok s

/-- `num_not_used_batch = min(req_to_token_pool.size, max_running_requests) -
running_batch.batch_size()` (a Python int, possibly negative). -/
def numNotUsedBatch (s : SchedulerState) : Int :=
  ((min s.req_to_token_pool.size s.max_running_requests : Nat) : Int)
    - (s.running_batch.reqs.length : Int)

/-- `SchedulerDisaggregationDecodeMixin.get_new_prebuilt_batch`: pull the first
`num_not_used_batch` requests, FIFO, off the waiting queue (materializing their
next-round inputs), put the remainder back, and build the fake
completed-prefill batch from the pulled requests. -/
def getNewPrebuiltBatch (s : SchedulerState) :
    Except String (Option ScheduleBatch × SchedulerState) :=
  if s.waiting_queue.length = 0 then Except.ok (none, s)
  else
    if ((s.waiting_queue.take (numNotUsedBatch s).toNat).map
        initNextRoundInput).length = 0 then
      Except.ok (none,
        { s with waiting_queue := s.waiting_queue.drop (numNotUsedBatch s).toNat })
    else
      match ScheduleBatch.prepare_for_prebuilt_extend
          { reqs := (s.waiting_queue.take (numNotUsedBatch s).toNat).map
              initNextRoundInput }
          s.req_to_token_pool with
      | Except.error e => Except.error e
      | Except.ok b1 =>
        match b1.process_prebuilt_extend with
        | Except.error e => Except.error e
        | Except.ok b2 =>
          Except.ok (some b2,
            { s with waiting_queue := s.waiting_queue.drop (numNotUsedBatch s).toNat })

/-- The number of requests `get_new_prebuilt_batch` pulls, as the code computes
it: `min(len(waiting_queue), max(num_not_used_batch, 0))`. -/
def pulledCount (s : SchedulerState) : Nat :=
  min s.waiting_queue.length (numNotUsedBatch s).toNat

/-- `SchedulerDisaggregationDecodeMixin.get_next_disagg_decode_batch_to_run`.
`update_running_batch` lives in `scheduler.py` (outside `src/`); per the spec
it advances the running batch one decode step, so it is passed here as an
abstract function. -/
def getNextDisaggDecodeBatchToRun (update : ScheduleBatch → ScheduleBatch)
    (s : SchedulerState) :
    Except String (Option ScheduleBatch × SchedulerState) :=
  match mergeLastBatch s with
  | Except.error e => Except.error e
  | Except.ok s1 =>
    match getNewPrebuiltBatch s1 with
    | Except.error e => Except.error e
    | Except.ok (new_prebuilt_batch, s2) =>
      match new_prebuilt_batch with
      | some b => Except.ok (some b, s2)
      | none =>
        if s2.running_batch.is_empty then Except.ok (none, s2)
        else
          let rb := update s2.running_batch
          Except.ok (if rb.is_empty then none else some rb,
            { s2 with running_batch := rb })

/-! ### Helper lemmas -/

lemma preAlloc_spec {pool : ReqToTokenPool} {kv : TokenKVAllocator} {req r1 : Req}
    {p1 : ReqToTokenPool} {k1 : TokenKVAllocator} {loc : List Nat}
    (h : preAlloc pool kv req = some (r1, p1, k1, loc)) :
    r1.origin_input_ids = req.origin_input_ids ∧ r1.rid = req.rid ∧
    r1.output_ids = req.output_ids ∧
    p1.available_size + 1 = pool.available_size ∧
    k1.available_size + (req.origin_input_ids.length + (req.output_ids.length - 1)) =
      kv.available_size ∧
    loc.length = req.origin_input_ids.length + (req.output_ids.length - 1) := by
  unfold preAlloc ReqToTokenPool.alloc1 at h
  cases hfs : pool.free_slots with
  | nil => rw [hfs] at h; cases h
  | cons x xs =>
    rw [hfs] at h
    simp only [TokenKVAllocator.alloc_extend, ite_self] at h
    unfold TokenKVAllocator.alloc at h
    by_cases hle :
        req.origin_input_ids.length + (req.output_ids.length - 1) ≤ kv.free_slots.length
    · rw [if_pos hle] at h
      simp only [Option.some.injEq] at h
      cases h
      refine ⟨rfl, rfl, rfl, ?_, ?_, ?_⟩
      · simp [ReqToTokenPool.available_size, ReqToTokenPool.write, hfs]
      · simp only [TokenKVAllocator.available_size, List.length_drop]
        omega
      · simp only [List.length_take]
        omega
    · rw [if_neg hle] at h
      cases h

lemma popLoop_budget (reserved ps : Nat) (qs : List DecodeRequest) :
    ∀ pool meta kv budget p r pool1 meta1 kv1 b1,
    popLoop reserved ps qs pool meta kv budget =
      Except.ok (p, r, pool1, meta1, kv1, b1) →
    b1 = budget - ((p.map (fun d => (requiredTokens reserved d : Int))).sum) := by
  induction qs with
  | nil =>
    intro pool meta kv budget p r pool1 meta1 kv1 b1 h
    rw [popLoop] at h
    cases h
    simp
  | cons d rest ih =>
    intro pool meta kv budget p r pool1 meta1 kv1 b1 h
    rw [popLoop] at h
    split at h
    · split at h
      · cases h
      · rename_i p2 r2 pool2 meta2 kv2 b2 hrec
        cases h
        exact ih _ _ _ _ _ _ _ _ _ _ hrec
    · split at h
      · cases h
        simp
      · split at h
        · cases h
          simp
        · split at h
          · cases h
            simp
          · split at h
            · cases h
            · rename_i req1 pool1x kv1x kvloc hpre
              split at h
              · cases h
              · rename_i midx meta1x halloc
                split at h
                · cases h
                · rename_i p2 r2 pool2 meta2 kv2 b2 hrec
                  cases h
                  have hb2 := ih _ _ _ _ _ _ _ _ _ _ hrec
                  have horig : req1.origin_input_ids = d.req.origin_input_ids :=
                    (preAlloc_spec hpre).1
                  simp only [List.map_cons, List.sum_cons, requiredTokens, horig]
                  rw [hb2]
                  simp only [requiredTokens]
                  push_cast
                  ring

/-- C2: the token budget computed at the start of `pop_preallocated` equals the
spec's admission-control formula (free cache capacity minus the per-request
reservation times the requests in the running batch, the TransferQueue and the
waiting list, minus additionally a reservation for a previous extend-mode
batch), and the scan decrements the budget by prompt length plus reserved
margin for each admitted entry. -/
theorem c2_token_budget_formula :
    (∀ s : DecodePreallocQueue, allocatableTokens s = specTokenBudget s) ∧
    (∀ (reserved ps : Nat) (qs : List DecodeRequest) pool meta kv budget p r pool1
        meta1 kv1 b1,
      popLoop reserved ps qs pool meta kv budget =
        Except.ok (p, r, pool1, meta1, kv1, b1) →
      b1 = budget - ((p.map (fun d => (requiredTokens reserved d : Int))).sum)) := by
  constructor
  · intro s
    unfold allocatableTokens specTokenBudget
    cases s.last_batch with
    | none => simp
    | some lb =>
      by_cases hlb : lb.is_extend
      · simp [hlb]
      · simp [hlb]
  · intro reserved ps qs pool meta kv budget p r pool1 meta1 kv1 b1 h
    exact popLoop_budget reserved ps qs pool meta kv budget p r pool1 meta1 kv1 b1 h

/-! ### Concrete instances for claim witnesses and counterexamples -/

def w2d : DecodeRequest :=
  { req := { rid := 1, origin_input_ids := [5, 6] }, waiting_for_input := true }

def w2pool : ReqToTokenPool := { size := 1, free_slots := [0] }

def w2meta : ReqToMetadataIdxAllocator := { free_slots := [0] }

def w2kv : TokenKVAllocator := { free_slots := [7, 8, 9] }

def w2dOut : DecodeRequest :=
  { req := { rid := 1, origin_input_ids := [5, 6], fill_ids := [5, 6],
             extend_input_len := 2, req_pool_idx := some 0 },
    waiting_for_input := true, metadata_buffer_index := 0,
    receiver_dst := some ([7, 8], 0) }

def w2poolOut : ReqToTokenPool :=
  { size := 1, free_slots := [], req_to_token := [(0, [7, 8])] }

/-- Witness for C2: one admitted entry with prompt length 2 and reserved margin
2 leaves a budget of 9 − 4 = 5. -/
theorem c2_token_budget_formula_witness :
    popLoop 2 1 [w2d] w2pool w2meta w2kv 9 =
      Except.ok ([w2dOut], [], w2poolOut, ⟨[]⟩, ⟨[9], 1⟩, 5) ∧
    (5 : Int) = 9 - (([w2dOut].map (fun d => (requiredTokens 2 d : Int))).sum) :=
  ⟨rfl, c2_token_budget_formula.2 2 1 [w2d] w2pool w2meta w2kv 9 [w2dOut] []
    w2poolOut ⟨[]⟩ ⟨[9], 1⟩ 5 rfl⟩

def cex3s : DecodePreallocQueue := { queue := [{ req := { rid := 42 } }] }

/-- C3: evaluating the code at the failing input — a PreallocQueue whose single
pending entry polls `Failed` — shows the request is aborted but the entry is
**not** removed from the queue (and, staying unsatisfied, is never
pre-allocated either): `_update_handshake_waiters` has no removal step. -/
theorem c3_failed_entry_not_removed :
    ((cex3s.updateHandshakeWaiters [KVPoll.Failed]).queue.map
        (fun d => (d.req.rid, d.req.aborted, d.waiting_for_input))) =
      [(42, true, false)] ∧
    (cex3s.pop_preallocated [KVPoll.Failed]).toOption.map
        (fun x => (x.1.length, x.2.queue.map (fun d => d.req.rid))) =
      some (0, [42]) := by decide

def cex4req : Req := { rid := 4, origin_input_ids := [1, 2, 3], output_ids := [7, 8] }

def cex4pool : ReqToTokenPool := { size := 2, free_slots := [0, 1] }

def cex4kv : TokenKVAllocator :=
  { free_slots := [20, 21, 22, 23, 24, 25, 26, 27, 28, 29] }

/-- C4 counterexample: for a request with prompt length 3 and two
already-generated output tokens, `_pre_alloc` takes 4 cache positions (10 free
before, 6 after), not the 5 positions the claim's prompt-plus-output-count
formula predicts. -/
theorem c4_counterexample :
    (preAlloc cex4pool cex4kv cex4req).map
        (fun t => t.2.2.1.available_size) = some 6 ∧
    cex4kv.available_size = 10 ∧
    cex4req.origin_input_ids.length + cex4req.output_ids.length = 5 ∧
    10 - 5 ≠ 6 := by decide

/-- C4 (amended): every successful `_pre_alloc` reserves exactly one request
slot and exactly prompt length plus max(output count − 1, 0) key/value cache
positions — one fewer than the claim states when outputs exist, because the
newest output token's cache entry is produced by the next decode step.  (The
two counts agree exactly when the request has no prior output.) -/
theorem c4_prealloc_reservation (pool : ReqToTokenPool) (kv : TokenKVAllocator)
    (req r1 : Req) (p1 : ReqToTokenPool) (k1 : TokenKVAllocator) (loc : List Nat)
    (h : preAlloc pool kv req = some (r1, p1, k1, loc)) :
    p1.available_size + 1 = pool.available_size ∧
    k1.available_size + (req.origin_input_ids.length + (req.output_ids.length - 1)) =
      kv.available_size ∧
    loc.length = req.origin_input_ids.length + (req.output_ids.length - 1) := by
  obtain ⟨-, -, -, h4, h5, h6⟩ := preAlloc_spec h
  exact ⟨h4, h5, h6⟩

def w4reqOut : Req :=
  { rid := 4, origin_input_ids := [1, 2, 3], output_ids := [7, 8],
    fill_ids := [1, 2, 3, 7, 8], extend_input_len := 3, req_pool_idx := some 0 }

def w4poolOut : ReqToTokenPool :=
  { size := 2, free_slots := [1], req_to_token := [(0, [20, 21, 22, 23])] }

def w4kvOut : TokenKVAllocator := { free_slots := [24, 25, 26, 27, 28, 29] }

/-- Witness for the amended C4 theorem at a concrete pre-allocation. -/
theorem c4_prealloc_reservation_witness :
    preAlloc cex4pool cex4kv cex4req =
      some (w4reqOut, w4poolOut, w4kvOut, [20, 21, 22, 23]) ∧
    (w4poolOut.available_size + 1 = cex4pool.available_size ∧
     w4kvOut.available_size +
        (cex4req.origin_input_ids.length + (cex4req.output_ids.length - 1)) =
       cex4kv.available_size ∧
     ([20, 21, 22, 23] : List Nat).length =
       cex4req.origin_input_ids.length + (cex4req.output_ids.length - 1)) :=
  ⟨by decide, c4_prealloc_reservation cex4pool cex4kv cex4req w4reqOut w4poolOut
    w4kvOut [20, 21, 22, 23] (by decide)⟩

/-- C6: on a `Success` poll the output token read from slot 0 of the request's
metadata-buffer entry is stored in the transferred-output field only when that
field is still unset and the request has no prior output; any other state is an
assertion failure (an `Except.error`), never a silent overwrite, so the field
is set at most once. -/
theorem c6_transferred_output_set_once (bufs : List (List (List Nat)))
    (d : DecodeRequest) :
    (d.req.output_ids = [] → d.req.transferred_output_id = none →
      successAction bufs d = Except.ok { d with req := { d.req with
        transferred_output_id :=
          some (pollOutputId bufs d.metadata_buffer_index) } }) ∧
    (∀ d1, successAction bufs d = Except.ok d1 →
      d.req.transferred_output_id = none ∧ d.req.output_ids = [] ∧
      d1.req.transferred_output_id =
        some (pollOutputId bufs d.metadata_buffer_index)) ∧
    (d.req.transferred_output_id ≠ none →
      ∃ e, successAction bufs d = Except.error e) := by
  refine ⟨?_, ?_, ?_⟩
  · intro h1 h2
    unfold successAction
    rw [if_neg (by simp [h1]), if_neg (by simp [h2])]
  · intro d1 h
    unfold successAction at h
    by_cases h1 : d.req.output_ids.length ≠ 0
    · rw [if_pos h1] at h
      cases h
    · rw [if_neg h1] at h
      by_cases h2 : d.req.transferred_output_id ≠ none
      · rw [if_pos h2] at h
        cases h
      · rw [if_neg h2] at h
        cases h
        rw [not_not] at h1 h2
        exact ⟨h2, List.length_eq_zero.mp h1, rfl⟩
  · intro h2
    unfold successAction
    by_cases h1 : d.req.output_ids.length ≠ 0
    · exact ⟨_, by rw [if_pos h1]⟩
    · rw [if_neg h1]
      exact ⟨_, by rw [if_pos h2]⟩

def cex6d : DecodeRequest :=
  { req := { rid := 6, transferred_output_id := some 5 }, metadata_buffer_index := 0 }

/-- Witness for C6: a request whose transferred-output field is already set
makes the `Success` branch fail its assert instead of overwriting. -/
theorem c6_transferred_output_set_once_witness :
    cex6d.req.transferred_output_id ≠ none ∧
    (∃ e, successAction [] cex6d = Except.error e) :=
  ⟨by decide, (c6_transferred_output_set_once [] cex6d).2.2 (by decide)⟩

/-- True exactly on `Except.error`. -/
def isError {α : Type} : Except String α → Bool
  | Except.error _ => true
  | Except.ok _ => false

lemma exists_error_iff_isError {α : Type} (x : Except String α) :
    (∃ e, x = Except.error e) ↔ isError x = true := by
  cases x <;> simp [isError]

lemma prebuiltLoop_error_iff (pool : ReqToTokenPool) (total : Nat) :
    ∀ (rs : List Req) (offset : Nat),
    offset + (rs.map (fun r => r.extend_input_len)).sum ≤ total →
    (isError (prebuiltLoop pool total rs offset) = true ↔
      ∃ r ∈ rs, r.output_ids = [] ∧
        (seqLenOf r : Int) - (r.prefix_indices.length : Int) ≠
          (r.extend_input_len : Int)) := by
  intro rs
  induction rs with
  | nil =>
    intro offset hb
    rw [prebuiltLoop]
    simp [isError]
  | cons r rs ih =>
    intro offset hb
    have hofs : offset + r.extend_input_len ≤ total := by
      simp only [List.map_cons, List.sum_cons] at hb
      omega
    have hb1 : (offset + r.extend_input_len) +
        (rs.map (fun r => r.extend_input_len)).sum ≤ total := by
      simp only [List.map_cons, List.sum_cons] at hb
      omega
    have ihh := ih (offset + r.extend_input_len) hb1
    rw [prebuiltLoop, if_pos hofs]
    by_cases hbad : r.output_ids.length = 0 ∧
        ((seqLenOf r : Int) - (r.prefix_indices.length : Int) ≠
          (r.extend_input_len : Int))
    · rw [if_pos hbad]
      constructor
      · intro _
        exact ⟨r, List.mem_cons_self r rs, List.length_eq_zero.mp hbad.1, hbad.2⟩
      · intro _
        rfl
    · rw [if_neg hbad]
      cases hc : prebuiltLoop pool total rs (offset + r.extend_input_len) with
      | error e =>
        rw [hc] at ihh
        constructor
        · intro _
          obtain ⟨r1, hr1, h1, h2⟩ := ihh.mp rfl
          exact ⟨r1, List.mem_cons_of_mem _ hr1, h1, h2⟩
        · intro _
          rfl
      | ok out =>
        obtain ⟨rs1, idxs, locs, sls, pls⟩ := out
        rw [hc] at ihh
        simp only [isError, Bool.false_eq_true, false_iff]
        rintro ⟨r1, hr1, h1, h2⟩
        rcases List.mem_cons.mp hr1 with h | h
        · subst h
          exact hbad ⟨by simp [h1], h2⟩
        · exact absurd (ihh.mpr ⟨r1, h, h1, h2⟩) (by simp [isError])

/-- C7: `prepare_for_prebuilt_extend` aborts with an assertion failure exactly
when some request with no prior output violates sequence length minus prefix
length equals extend length; otherwise batch construction succeeds (it never
silently truncates or continues). -/
theorem c7_extend_length_invariant (pool : ReqToTokenPool) (b : ScheduleBatch) :
    (∃ e, b.prepare_for_prebuilt_extend pool = Except.error e) ↔
      ∃ r ∈ b.reqs, r.output_ids = [] ∧
        (seqLenOf r : Int) - (r.prefix_indices.length : Int) ≠
          (r.extend_input_len : Int) := by
  rw [exists_error_iff_isError]
  have hloop := prebuiltLoop_error_iff pool
    ((b.reqs.map (fun r => r.extend_input_len)).sum) b.reqs 0 (by omega)
  unfold ScheduleBatch.prepare_for_prebuilt_extend
  cases hc : prebuiltLoop pool ((b.reqs.map (fun r => r.extend_input_len)).sum)
      b.reqs 0 with
  | error e =>
    rw [hc] at hloop
    constructor
    · intro _
      exact hloop.mp rfl
    · intro _
      rfl
  | ok out =>
    obtain ⟨rs1, idxs, locs, sls, pls⟩ := out
    rw [hc] at hloop
    simp only [isError, Bool.false_eq_true, false_iff]
    intro hex
    exact absurd (hloop.mpr hex) (by simp [isError])

lemma processLoop_spec :
    ∀ (rs : List Req),
    (∀ r ∈ rs, r.output_ids = [] → r.transferred_output_id ≠ none) →
    processLoop rs = Except.ok
      (rs.map (fun r =>
        if r.output_ids.length > 0 then r
        else { r with output_ids := r.output_ids ++ [r.transferred_output_id.getD 0] }),
       rs.map (fun r =>
        if r.output_ids.length > 0 then r.output_ids.getLastD 0
        else r.transferred_output_id.getD 0)) := by
  intro rs
  induction rs with
  | nil => intro _; rfl
  | cons r rs ih =>
    intro h
    have hrest := ih (fun r1 hr1 => h r1 (List.mem_cons_of_mem _ hr1))
    rw [processLoop]
    by_cases hr : r.output_ids.length > 0
    · rw [if_pos hr, hrest]
      simp [hr]
    · rw [if_neg hr]
      have hout : r.output_ids = [] := by
        cases ho : r.output_ids with
        | nil => rfl
        | cons a l => rw [ho] at hr; simp at hr
      have ht := h r (List.mem_cons_self r rs) hout
      cases hto : r.transferred_output_id with
      | none => exact absurd hto ht
      | some t => simp [hto, hrest, hout, hr]

/-- C10: for every prebuilt batch in which each no-output request has its
transferred-output field set, `process_prebuilt_extend` succeeds; a request
with prior output contributes its last existing output token (its
transferred-output field is neither read nor required), while a request with
no output has its (asserted non-`none`) transferred token appended to its
output sequence and contributed to the batch. -/
theorem c10_resumed_request_tokens (b : ScheduleBatch)
    (h : ∀ r ∈ b.reqs, r.output_ids = [] → r.transferred_output_id ≠ none) :
    ∃ b1, b.process_prebuilt_extend = Except.ok b1 ∧
      b1.output_ids = b.reqs.map (fun r =>
        if r.output_ids.length > 0 then r.output_ids.getLastD 0
        else r.transferred_output_id.getD 0) ∧
      b1.reqs = b.reqs.map (fun r =>
        if r.output_ids.length > 0 then r
        else { r with output_ids := r.output_ids ++ [r.transferred_output_id.getD 0] }) := by
  unfold ScheduleBatch.process_prebuilt_extend
  rw [processLoop_spec b.reqs h]
  exact ⟨_, rfl, rfl, rfl⟩

def w10a : Req := { rid := 21, output_ids := [3, 4] }

def w10b : Req := { rid := 22, transferred_output_id := some 9 }

def w10batch : ScheduleBatch := { reqs := [w10a, w10b] }

/-- Witness for C10: a resumed request (outputs `[3, 4]`, transferred-output
unset) contributes `4`; a fresh request contributes its transferred token `9`. -/
theorem c10_resumed_request_tokens_witness :
    (∀ r ∈ w10batch.reqs, r.output_ids = [] → r.transferred_output_id ≠ none) ∧
    ∃ b1, w10batch.process_prebuilt_extend = Except.ok b1 ∧
      b1.output_ids = w10batch.reqs.map (fun r =>
        if r.output_ids.length > 0 then r.output_ids.getLastD 0
        else r.transferred_output_id.getD 0) ∧
      b1.reqs = w10batch.reqs.map (fun r =>
        if r.output_ids.length > 0 then r
        else { r with output_ids := r.output_ids ++ [r.transferred_output_id.getD 0] }) :=
  ⟨by decide, c10_resumed_request_tokens w10batch (by decide)⟩

lemma prebuiltLoop_ok_reqs (pool : ReqToTokenPool) (total : Nat) :
    ∀ (rs : List Req) (offset : Nat) rs1 idxs locs sls pls,
    prebuiltLoop pool total rs offset = Except.ok (rs1, idxs, locs, sls, pls) →
    rs1 = rs.map prebuiltStamp := by
  intro rs
  induction rs with
  | nil =>
    intro offset rs1 idxs locs sls pls h
    rw [prebuiltLoop] at h
    cases h
    rfl
  | cons r rs ih =>
    intro offset rs1 idxs locs sls pls h
    rw [prebuiltLoop] at h
    split at h
    · split at h
      · cases h
      · split at h
        · cases h
        · rename_i rs2 idxs2 locs2 sls2 pls2 hrec
          cases h
          simp only [List.map_cons]
          rw [ih _ _ _ _ _ _ hrec]
    · cases h

lemma processLoop_rids :
    ∀ (rs rs1 : List Req) (outs : List Nat),
    processLoop rs = Except.ok (rs1, outs) →
    rs1.map (fun r => r.rid) = rs.map (fun r => r.rid) := by
  intro rs
  induction rs with
  | nil =>
    intro rs1 outs h
    rw [processLoop] at h
    cases h
    rfl
  | cons r rs ih =>
    intro rs1 outs h
    rw [processLoop] at h
    split at h
    · split at h
      · cases h
      · rename_i rs2 outs2 hrec
        cases h
        simp only [List.map_cons]
        rw [ih _ _ hrec]
    · split at h
      · cases h
      · rename_i t ht
        split at h
        · cases h
        · rename_i rs2 outs2 hrec
          cases h
          simp only [List.map_cons]
          rw [ih _ _ hrec]

lemma take_min_length {α : Type} (l : List α) (k : Nat) :
    l.take (min l.length k) = l.take k := by
  rcases le_or_lt k l.length with h | h
  · rw [min_eq_right h]
  · rw [min_eq_left h.le, List.take_length, List.take_of_length_le h.le]

lemma drop_min_length {α : Type} (l : List α) (k : Nat) :
    l.drop (min l.length k) = l.drop k := by
  rcases le_or_lt k l.length with h | h
  · rw [min_eq_right h]
  · rw [min_eq_left h.le, List.drop_length, List.drop_eq_nil_of_le h.le]

/-- C9 (amended): when `get_new_prebuilt_batch` returns, it has pulled exactly
`min(waiting-list length, min(slot-pool size, max_running_requests) − running
batch size)` requests off the waiting list, in FIFO order, into the prebuilt
batch, leaving the remainder queued in order. -/
theorem c9_fifo_pull (s : SchedulerState) (res : Option ScheduleBatch)
    (s1 : SchedulerState)
    (h : getNewPrebuiltBatch s = Except.ok (res, s1)) :
    s1.waiting_queue = s.waiting_queue.drop (pulledCount s) ∧
    (pulledCount s = 0 → res = none) ∧
    (pulledCount s ≠ 0 → ∃ b, res = some b) ∧
    (∀ b, res = some b →
      b.reqs.map (fun r => r.rid) =
        (s.waiting_queue.take (pulledCount s)).map (fun r => r.rid) ∧
      b.reqs.length = pulledCount s) := by
  unfold getNewPrebuiltBatch at h
  by_cases h0 : s.waiting_queue.length = 0
  · rw [if_pos h0] at h
    cases h
    have hp : pulledCount s = 0 := by simp [pulledCount, h0]
    refine ⟨?_, fun _ => rfl, fun hne => absurd hp hne, fun b hb => nomatch hb⟩
    rw [hp, List.drop_zero]
  · rw [if_neg h0] at h
    by_cases h1 : ((s.waiting_queue.take (numNotUsedBatch s).toNat).map
        initNextRoundInput).length = 0
    · rw [if_pos h1] at h
      cases h
      have hmin : min (numNotUsedBatch s).toNat s.waiting_queue.length = 0 := by
        simpa using h1
      have hk0 : (numNotUsedBatch s).toNat = 0 := by
        rcases Nat.min_eq_zero_iff.mp hmin with hx | hx
        · exact hx
        · exact absurd hx h0
      have hp : pulledCount s = 0 := by
        rw [pulledCount, hk0]
        simp
      refine ⟨?_, fun _ => rfl, fun hne => absurd hp hne, fun b hb => nomatch hb⟩
      rw [hp, List.drop_zero, hk0, List.drop_zero]
    · rw [if_neg h1] at h
      split at h
      · cases h
      · rename_i b1 hprep
        split at h
        · cases h
        · rename_i b2 hproc
          cases h
          have hminne : min (numNotUsedBatch s).toNat s.waiting_queue.length ≠ 0 := by
            simpa using h1
          have hp : pulledCount s = min s.waiting_queue.length
              (numNotUsedBatch s).toNat := rfl
          have hr1 : b1.reqs = ((s.waiting_queue.take (numNotUsedBatch s).toNat).map
              initNextRoundInput).map prebuiltStamp := by
            unfold ScheduleBatch.prepare_for_prebuilt_extend at hprep
            split at hprep
            · cases hprep
            · rename_i rs1 idxs locs sls pls hloop
              cases hprep
              exact prebuiltLoop_ok_reqs _ _ _ _ _ _ _ _ _ hloop
          have hr2 : b2.reqs.map (fun r => r.rid) = b1.reqs.map (fun r => r.rid) := by
            unfold ScheduleBatch.process_prebuilt_extend at hproc
            split at hproc
            · cases hproc
            · rename_i rs1 outs hploop
              cases hproc
              exact processLoop_rids _ _ _ hploop
          have hrid : b2.reqs.map (fun r => r.rid) =
              (s.waiting_queue.take (numNotUsedBatch s).toNat).map (fun r => r.rid) := by
            rw [hr2, hr1, List.map_map, List.map_map]
            rfl
          have htake : s.waiting_queue.take (numNotUsedBatch s).toNat =
              s.waiting_queue.take (pulledCount s) := by
            rw [hp, take_min_length]
          have hdrop : s.waiting_queue.drop (numNotUsedBatch s).toNat =
              s.waiting_queue.drop (pulledCount s) := by
            rw [hp, drop_min_length]
          refine ⟨hdrop, ?_, fun _ => ⟨b2, rfl⟩, ?_⟩
          · intro hz
            rw [hp, min_comm] at hz
            exact absurd hz hminne
          · intro b hb
            cases hb
            constructor
            · rw [hrid, htake]
            · have hlen := congrArg List.length hrid
              simp only [List.length_map, List.length_take] at hlen
              rw [hlen, hp, min_comm]

def wit9req : Req := { rid := 31 }

def wit9s : SchedulerState :=
  { running_batch := { reqs := [{ rid := 30 }] },
    waiting_queue := [wit9req],
    req_to_token_pool := { size := 1 },
    max_running_requests := 1 }

/-- Witness for the amended C9 theorem: with capacity zero the call pulls no
request and leaves the waiting list untouched. -/
theorem c9_fifo_pull_witness :
    getNewPrebuiltBatch wit9s = Except.ok (none, wit9s) ∧
    (wit9s.waiting_queue = wit9s.waiting_queue.drop (pulledCount wit9s) ∧
     (pulledCount wit9s = 0 → (none : Option ScheduleBatch) = none) ∧
     (pulledCount wit9s ≠ 0 → ∃ b, (none : Option ScheduleBatch) = some b) ∧
     (∀ b, (none : Option ScheduleBatch) = some b →
       b.reqs.map (fun r => r.rid) =
         (wit9s.waiting_queue.take (pulledCount wit9s)).map (fun r => r.rid) ∧
       b.reqs.length = pulledCount wit9s)) :=
  ⟨rfl, c9_fifo_pull wit9s none wit9s rfl⟩

def cex9req (n : Nat) : Req :=
  { rid := n, origin_input_ids := [5], transferred_output_id := some 9,
    req_pool_idx := some 0 }

def cex9s : SchedulerState :=
  { running_batch := { reqs := [{ rid := 100 }] },
    waiting_queue := [cex9req 1, cex9req 2, cex9req 3, cex9req 4, cex9req 5],
    req_to_token_pool := { size := 10, req_to_token := [(0, [3])] },
    max_running_requests := 2 }

/-- C9 counterexample: with slot-pool size 10, `max_running_requests` 2, one
running request and five waiting requests, the code pulls exactly one request
(leaving four queued), while the claim's `min(waiting length, slot-pool size −
running size) = min(5, 9) = 5` predicts five: the claim omits the
`max_running_requests` cap. -/
theorem c9_counterexample :
    (getNewPrebuiltBatch cex9s).toOption.map
        (fun x => ((x.1.map (fun b => b.reqs.length)).getD 0,
          x.2.waiting_queue.length)) = some (1, 4) ∧
    min cex9s.waiting_queue.length
        (cex9s.req_to_token_pool.size - cex9s.running_batch.reqs.length) = 5 ∧
    (1 : Nat) ≠ 5 := by decide

/-- C8: each tick, `get_next_disagg_decode_batch_to_run` returns the freshly
built prebuilt-extend batch whenever one was built; only when none was built
does it advance and return the running batch, and it returns no work exactly
when no prebuilt batch was built and the (advanced) running batch is empty.
`update_running_batch` is the abstract advance step (outside `src/`). -/
theorem c8_prebuilt_batch_priority (update : ScheduleBatch → ScheduleBatch)
    (s s1 : SchedulerState) (nb : Option ScheduleBatch) (s2 : SchedulerState)
    (hm : mergeLastBatch s = Except.ok s1)
    (hb : getNewPrebuiltBatch s1 = Except.ok (nb, s2)) :
    ∃ ret s3, getNextDisaggDecodeBatchToRun update s = Except.ok (ret, s3) ∧
      (∀ b, nb = some b → ret = some b ∧ s3 = s2) ∧
      (nb = none → s2.running_batch.is_empty = true → ret = none ∧ s3 = s2) ∧
      (nb = none → s2.running_batch.is_empty = false →
        s3.running_batch = update s2.running_batch ∧
        ret = (if (update s2.running_batch).is_empty then none
               else some (update s2.running_batch))) ∧
      (ret = none ↔ nb = none ∧ s3.running_batch.is_empty = true) := by
  unfold getNextDisaggDecodeBatchToRun
  simp only [hm]
  simp only [hb]
  cases nb with
  | some b =>
    refine ⟨some b, s2, rfl, ?_, ?_, ?_, ?_⟩
    · intro b1 hb1
      cases hb1
      exact ⟨rfl, rfl⟩
    · intro hx
      cases hx
    · intro hx
      cases hx
    · constructor
      · intro hx
        cases hx
      · rintro ⟨hx, -⟩
        cases hx
  | none =>
    by_cases he : s2.running_batch.is_empty = true
    · rw [if_pos he]
      refine ⟨none, s2, rfl, ?_, ?_, ?_, ?_⟩
      · intro b1 hb1
        cases hb1
      · intro _ _
        exact ⟨rfl, rfl⟩
      · intro _ hne
        rw [he] at hne
        cases hne
      · simp [he]
    · rw [if_neg he]
      have he1 : s2.running_batch.is_empty = false := by
        revert he
        cases s2.running_batch.is_empty <;> simp
      refine ⟨_, _, rfl, ?_, ?_, ?_, ?_⟩
      · intro b1 hb1
        cases hb1
      · intro _ hemp
        rw [hemp] at he1
        cases he1
      · intro _ _
        exact ⟨rfl, rfl⟩
      · by_cases hu : (update s2.running_batch).is_empty = true
        · rw [if_pos hu]
          simp [hu]
        · rw [if_neg hu]
          simp [hu]

def wit8s : SchedulerState := { running_batch := { reqs := [{ rid := 100 }] } }

/-- Witness for C8: no last batch, empty waiting list, non-empty running batch,
identity advance — the tick returns the running batch. -/
theorem c8_prebuilt_batch_priority_witness :
    mergeLastBatch wit8s = Except.ok wit8s ∧
    getNewPrebuiltBatch wit8s = Except.ok (none, wit8s) ∧
    ∃ ret s3, getNextDisaggDecodeBatchToRun id wit8s = Except.ok (ret, s3) ∧
      (∀ b, (none : Option ScheduleBatch) = some b → ret = some b ∧ s3 = wit8s) ∧
      ((none : Option ScheduleBatch) = none → wit8s.running_batch.is_empty = true →
        ret = none ∧ s3 = wit8s) ∧
      ((none : Option ScheduleBatch) = none → wit8s.running_batch.is_empty = false →
        s3.running_batch = id wit8s.running_batch ∧
        ret = (if (id wit8s.running_batch).is_empty then none
               else some (id wit8s.running_batch))) ∧
      (ret = none ↔ (none : Option ScheduleBatch) = none ∧
        s3.running_batch.is_empty = true) :=
  ⟨rfl, rfl, c8_prebuilt_batch_priority id wit8s wit8s none wit8s rfl rfl⟩

def cex5fail : DecodeRequest := { req := { rid := 51 }, metadata_buffer_index := 0 }

def cex5succ : DecodeRequest := { req := { rid := 52 }, metadata_buffer_index := 1 }

def cex5s : DecodeTransferQueue :=
  { queue := [cex5fail],
    req_to_metadata_buffer_idx_allocator := { free_slots := [5] },
    metadata_buffers := [[[7], [8]]] }

def cex5mix : DecodeTransferQueue :=
  { queue := [cex5succ, cex5fail],
    req_to_metadata_buffer_idx_allocator := { free_slots := [5] },
    metadata_buffers := [[[7], [8]]] }

def cex5ok : DecodeTransferQueue :=
  { queue := [cex5succ],
    req_to_metadata_buffer_idx_allocator := { free_slots := [5] },
    metadata_buffers := [[[7], [8]]] }

/-- C5: evaluating the code at the failing input.  A transfer entry whose
agreed poll is `Failed` makes the whole `pop_transferred` call raise — the
branch reads `self.tp_rank`, `HTTPStatus`, `self.scheduler` and
`self.tree_cache`, none of which exist — before any removal, so the failed
request metadata-buffer index is never freed, and even a success-path removal
and free in the same call is lost (second conjunct).  Only a call with no
`Failed` poll reaches the free phase; there the successfully transferred
entry's index is freed exactly once and the queue compacts (third conjunct). -/
theorem c5_failed_transfer_never_freed :
    (cex5s.pop_transferred [KVPoll.Failed]).toOption = none ∧
    (cex5mix.pop_transferred [KVPoll.Success, KVPoll.Failed]).toOption = none ∧
    (cex5ok.pop_transferred [KVPoll.Success]).toOption.map
        (fun x => (x.2.req_to_metadata_buffer_idx_allocator.free_slots,
          x.2.queue.length, x.1.map (fun d => d.req.rid))) =
      some ([5, 1], 0, [52]) := by decide

lemma updateHandshakeWaiters_of_all_waiting (s : DecodePreallocQueue)
    (polls : List KVPoll)
    (hw : ∀ d ∈ s.queue, d.waiting_for_input = true) :
    s.updateHandshakeWaiters polls = s := by
  unfold DecodePreallocQueue.updateHandshakeWaiters
  by_cases hq : s.queue.isEmpty
  · rw [if_pos hq]
  · rw [if_neg hq, if_pos (List.all_eq_true.mpr hw)]

lemma allocatableTokens_le (s : DecodePreallocQueue) :
    allocatableTokens s ≤ (s.token_to_kv_pool_allocator.available_size : Int) := by
  have h1 : (0 : Int) ≤ (s.num_reserved_decode_tokens : Int) *
      ((s.running_batch_len : Int) + (s.transfer_queue_len : Int)
        + (s.waiting_queue_len : Int)) := by positivity
  cases hlast : s.last_batch with
  | none =>
    simp only [allocatableTokens, hlast]
    omega
  | some lb =>
    have h2 : (0 : Int) ≤
        (s.num_reserved_decode_tokens : Int) * (lb.num_reqs : Int) := by positivity
    by_cases hlb : lb.is_extend = true
    · simp only [allocatableTokens, hlast, hlb, if_true]
      omega
    · simp only [allocatableTokens, hlast, hlb, if_false]
      omega

lemma preAlloc_succeeds (pool : ReqToTokenPool) (kv : TokenKVAllocator) (req : Req)
    (hp : pool.available_size ≠ 0)
    (hkv : req.origin_input_ids.length + (req.output_ids.length - 1) ≤
      kv.available_size) :
    ∃ r1 p1 k1 loc, preAlloc pool kv req = some (r1, p1, k1, loc) := by
  unfold preAlloc ReqToTokenPool.alloc1
  cases hfs : pool.free_slots with
  | nil =>
    exact absurd (by simp [ReqToTokenPool.available_size, hfs]) hp
  | cons x xs =>
    simp only [TokenKVAllocator.alloc_extend, ite_self]
    unfold TokenKVAllocator.alloc
    have hkv1 : req.origin_input_ids.length + (req.output_ids.length - 1) ≤
        kv.free_slots.length := hkv
    rw [if_pos hkv1]
    exact ⟨_, _, _, _, rfl⟩

lemma popLoop_all_waiting (reserved ps : Nat) :
    ∀ (qs : List DecodeRequest) (pool : ReqToTokenPool)
      (meta : ReqToMetadataIdxAllocator) (kv : TokenKVAllocator) (budget : Int),
    (∀ d ∈ qs, d.waiting_for_input = true) →
    (∀ d ∈ qs, d.req.output_ids = []) →
    budget ≤ (kv.available_size : Int) →
    ∃ p pool1 meta1 kv1 b1,
      popLoop reserved ps qs pool meta kv budget =
        Except.ok (p, qs.drop (specGreedyAdmitCount reserved pool.available_size
          meta.available_size budget qs), pool1, meta1, kv1, b1) ∧
      p.map (fun d => d.req.rid) =
        (qs.take (specGreedyAdmitCount reserved pool.available_size
          meta.available_size budget qs)).map (fun d => d.req.rid) := by
  intro qs
  induction qs with
  | nil =>
    intro pool meta kv budget _ _ _
    exact ⟨[], pool, meta, kv, budget, rfl, rfl⟩
  | cons d rest ih =>
    intro pool meta kv budget hw ho hb
    have hwd : d.waiting_for_input = true := hw d (List.mem_cons_self _ _)
    by_cases hp : pool.available_size = 0
    · have hK : specGreedyAdmitCount reserved pool.available_size
          meta.available_size budget (d :: rest) = 0 := by
        rw [specGreedyAdmitCount, if_pos hp]
      refine ⟨[], pool, meta, kv, budget, ?_, ?_⟩
      · rw [popLoop, if_neg (by simp [hwd]), if_pos (by omega :
          pool.available_size ≤ 0), hK]
        rfl
      · rw [hK]
        rfl
    · by_cases hm : meta.available_size = 0
      · have hK : specGreedyAdmitCount reserved pool.available_size
            meta.available_size budget (d :: rest) = 0 := by
          rw [specGreedyAdmitCount, if_neg hp, if_pos hm]
        refine ⟨[], pool, meta, kv, budget, ?_, ?_⟩
        · rw [popLoop, if_neg (by simp [hwd]),
            if_neg (by omega : ¬ pool.available_size ≤ 0),
            if_pos (by omega : meta.available_size ≤ 0), hK]
          rfl
        · rw [hK]
          rfl
      · by_cases hbud : (requiredTokens reserved d : Int) > budget
        · have hK : specGreedyAdmitCount reserved pool.available_size
              meta.available_size budget (d :: rest) = 0 := by
            rw [specGreedyAdmitCount, if_neg hp, if_neg hm, if_pos hbud]
          refine ⟨[], pool, meta, kv, budget, ?_, ?_⟩
          · rw [popLoop, if_neg (by simp [hwd]),
              if_neg (by omega : ¬ pool.available_size ≤ 0),
              if_neg (by omega : ¬ meta.available_size ≤ 0), if_pos hbud, hK]
            rfl
          · rw [hK]
            rfl
        · have hod : d.req.output_ids = [] := ho d (List.mem_cons_self _ _)
          have h6 : (requiredTokens reserved d : Int) ≤ budget := not_lt.mp hbud
          have hnum : d.req.origin_input_ids.length +
              (d.req.output_ids.length - 1) ≤ kv.available_size := by
            rw [hod]
            simp only [List.length_nil, Nat.zero_sub, Nat.add_zero]
            simp only [requiredTokens] at h6
            omega
          obtain ⟨r1, p1, k1, loc, hpre⟩ := preAlloc_succeeds pool kv d.req hp hnum
          have hspec := preAlloc_spec hpre
          obtain ⟨m, ms, hmfs⟩ :
              ∃ m ms, meta.free_slots = m :: ms := by
            cases hm2 : meta.free_slots with
            | nil =>
              exact absurd (by
                simp [ReqToMetadataIdxAllocator.available_size, hm2]) hm
            | cons y ys => exact ⟨y, ys, rfl⟩
          have halloc : meta.alloc = (some m, ⟨ms⟩) := by
            unfold ReqToMetadataIdxAllocator.alloc
            rw [hmfs]
          have hb1 : budget - (requiredTokens reserved d : Int) ≤
              (k1.available_size : Int) := by
            have h5 := hspec.2.2.2.2.1
            rw [hod] at h5
            simp only [List.length_nil, Nat.zero_sub, Nat.add_zero] at h5
            simp only [requiredTokens] at h6 ⊢
            omega
          obtain ⟨p2, pool2, meta2, kv2, b2, hrec, hmap⟩ :=
            ih p1 ⟨ms⟩ k1 (budget - (requiredTokens reserved d : Int))
              (fun d1 hd1 => hw d1 (List.mem_cons_of_mem _ hd1))
              (fun d1 hd1 => ho d1 (List.mem_cons_of_mem _ hd1)) hb1
          have hpavail : p1.available_size = pool.available_size - 1 := by
            have := hspec.2.2.2.1
            omega
          have hmavail : (⟨ms⟩ : ReqToMetadataIdxAllocator).available_size =
              meta.available_size - 1 := by
            simp [ReqToMetadataIdxAllocator.available_size, hmfs]
          have hK : specGreedyAdmitCount reserved pool.available_size
              meta.available_size budget (d :: rest) =
              1 + specGreedyAdmitCount reserved (pool.available_size - 1)
                (meta.available_size - 1)
                (budget - (requiredTokens reserved d : Int)) rest := by
            rw [specGreedyAdmitCount, if_neg hp, if_neg hm, if_neg hbud]
          have hridd : r1.rid = d.req.rid := hspec.2.1
          refine ⟨({ d with req := r1, metadata_buffer_index := m, receiver_dst := some (kvToPageIndices (p1.read (r1.req_pool_idx.getD 0) r1.origin_input_ids.length) ps, m) } : DecodeRequest) :: p2, pool2, meta2, kv2, b2, ?_, ?_⟩
          · rw [popLoop, if_neg (by simp [hwd]),
              if_neg (by omega : ¬ pool.available_size ≤ 0),
              if_neg (by omega : ¬ meta.available_size ≤ 0), if_neg hbud]
            simp only [hpre, halloc, hrec]
            rw [hK, add_comm 1, List.drop_succ_cons, ← hpavail, ← hmavail]
          · rw [hK, add_comm 1, List.take_succ_cons, ← hpavail, ← hmavail]
            simp only [List.map_cons, hmap]
            simp [hridd]

/-- C1: with every queued entry's handshake satisfied (and no prior outputs),
`pop_preallocated` admits exactly the greedy FIFO prefix the claim describes —
the first K entries, where the scan stops at the first entry for which the
request-slot pool, the metadata-index pool or the token budget is insufficient
— returning them in arrival order and leaving entries K+1..N queued, even if a
later entry would fit. -/
theorem c1_fifo_admission_with_early_stop (s : DecodePreallocQueue)
    (polls : List KVPoll)
    (hw : ∀ d ∈ s.queue, d.waiting_for_input = true)
    (ho : ∀ d ∈ s.queue, d.req.output_ids = []) :
    ∃ p s1, s.pop_preallocated polls = Except.ok (p, s1) ∧
      p.map (fun d => d.req.rid) =
        (s.queue.take (specAdmitCount s)).map (fun d => d.req.rid) ∧
      s1.queue = s.queue.drop (specAdmitCount s) := by
  have hid := updateHandshakeWaiters_of_all_waiting s polls hw
  obtain ⟨p, pool1, meta1, kv1, b1, hloop, hmap⟩ :=
    popLoop_all_waiting s.num_reserved_decode_tokens
      s.token_to_kv_pool_allocator.page_size s.queue s.req_to_token_pool
      s.req_to_metadata_buffer_idx_allocator s.token_to_kv_pool_allocator
      (allocatableTokens s) hw ho (allocatableTokens_le s)
  refine ⟨p, { s with
      queue := s.queue.drop (specAdmitCount s),
      req_to_token_pool := pool1,
      req_to_metadata_buffer_idx_allocator := meta1,
      token_to_kv_pool_allocator := kv1 }, ?_, ?_, ?_⟩
  · unfold DecodePreallocQueue.pop_preallocated
    rw [hid]
    simp only [hloop]
    rfl
  · exact hmap
  · rfl

def w1d1 : DecodeRequest :=
  { req := { rid := 1, origin_input_ids := [1, 2] }, waiting_for_input := true }

def w1d2 : DecodeRequest :=
  { req := { rid := 2, origin_input_ids := [1, 2, 3, 4, 5, 6, 7, 8, 9, 10] },
    waiting_for_input := true }

def w1d3 : DecodeRequest :=
  { req := { rid := 3, origin_input_ids := [9] }, waiting_for_input := true }

def w1s : DecodePreallocQueue :=
  { queue := [w1d1, w1d2, w1d3],
    req_to_token_pool := { size := 3, free_slots := [0, 1, 2] },
    token_to_kv_pool_allocator :=
      { free_slots := [10, 11, 12, 13, 14, 15, 16, 17, 18] },
    req_to_metadata_buffer_idx_allocator := { free_slots := [0, 1, 2] },
    num_reserved_decode_tokens := 2 }

/-- Witness for C1: budget 9 admits only the first entry (needs 2 + 2 tokens;
the second needs 12), and the third entry — which would fit in the remaining
budget — stays queued behind the second. -/
theorem c1_fifo_admission_with_early_stop_witness :
    (∀ d ∈ w1s.queue, d.waiting_for_input = true) ∧
    ∃ p s1, w1s.pop_preallocated [] = Except.ok (p, s1) ∧
      p.map (fun d => d.req.rid) =
        (w1s.queue.take (specAdmitCount w1s)).map (fun d => d.req.rid) ∧
      s1.queue = w1s.queue.drop (specAdmitCount w1s) :=
  ⟨by decide, c1_fifo_admission_with_early_stop w1s [] (by decide) (by decide)⟩

end DisaggDecode
